import Mathlib

/-
Verification of the QC evaluation engine (blank / duplicate / CRM evaluators
and the summary aggregator) of the Python-Lab_QAQC repository.

The Python sources under qc_engine/ are shallowly embedded below.  Raw
spreadsheet cells are modelled by the `Cell` type (a cell is missing, holds a
number, or holds a string); float arithmetic is modelled by exact rational
arithmetic, with float NaN/inf edge cases tracked explicitly through `Option`
and dedicated field constructors where the source can produce them.
-/

set_option maxHeartbeats 1000000

/- Batteries marks the rational-number operations irreducible, which blocks
kernel evaluation of concrete witnesses; restore the default reducibility
locally (this has no effect on soundness, only on unfolding). -/
set_option allowUnsafeReducibility true
attribute [local semireducible] Rat.mul Rat.add Rat.inv Rat.sub

namespace QAQC

/-- A raw table cell: NaN/absent, an already-numeric value, or a string
(pandas object columns hold exactly these in the source's inputs). -/
inductive Cell where
  | missing
  | numCell (q : ℚ)
  | strCell (s : String)
deriving DecidableEq

/-- Python str.strip on a character list: drop whitespace on both ends. -/
def trimChars (cs : List Char) : List Char :=
  ((cs.dropWhile Char.isWhitespace).reverse.dropWhile Char.isWhitespace).reverse

/-- Value of a list of decimal digit characters. -/
def digitsToNat (cs : List Char) : ℕ :=
  cs.foldl (fun a c => a * 10 + (c.toNat - 48)) 0

/-- Parse an unsigned decimal literal: digits, optionally followed by a point
and further digits, with at least one digit present.  Models the accepting
core of Python float parsing on plain decimal strings (exponent and
inf/nan spellings do not occur in the data handled by the claims). -/
def parseUnsigned? (cs : List Char) : Option ℚ :=
  let ip := cs.takeWhile Char.isDigit
  let rest := cs.dropWhile Char.isDigit
  match rest with
  | [] => if ip.isEmpty then none else some ((digitsToNat ip : ℚ))
  | '.' :: frac =>
      if frac.all Char.isDigit && !(ip.isEmpty && frac.isEmpty) then
        some ((digitsToNat ip : ℚ) + (digitsToNat frac : ℚ) / (10 : ℚ) ^ frac.length)
      else none
  | _ => none

/-- Python float(s) on a string: strip whitespace, optional sign, decimal
literal; any parse failure yields none (the callers turn it into NaN). -/
def pyFloat? (s : String) : Option ℚ :=
  match trimChars s.data with
  | '+' :: rest => parseUnsigned? rest
  | '-' :: rest => (parseUnsigned? rest).map (fun q => -q)
  | cs => parseUnsigned? cs

/-- is_bdl on the underlying string: stripped form starts with "<". -/
def isBdlStr (s : String) : Bool :=
  match trimChars s.data with
  | '<' :: _ => true
  | _ => false

/-- is_bdl (blank_wide.py / duplicate_wide.py): a cell is censored iff it is a
string whose stripped form starts with "<". -/
def is_bdl (c : Cell) : Bool :=
  match c with
  | Cell.strCell s => isBdlStr s
  | _ => false

/-- The IEEE double produced by np.sqrt(2), as an exact rational: the blank
module computes dl / np.sqrt(2) in double precision. -/
def sqrtTwoFloat : ℚ := 6369051672525773 / 4503599627370496

/-- The BDL substitution rule configuration value: one of the symbolic rules,
a numeric override, or an unrecognized symbolic rule (fallback). -/
inductive BdlRule where
  | half
  | sqrt2
  | zero
  | dl
  | override (q : ℚ)
  | other (s : String)
deriving DecidableEq

namespace BlankWide

/-- bdl_substitution (blank_wide.py): numeric override is used literally;
half → dl/2, sqrt2 → dl/√2 (double), zero → 0, dl → dl; anything else
falls back to dl/2. -/
def bdl_substitution (dlv : ℚ) (rule : BdlRule) : ℚ :=
  match rule with
  | BdlRule.override q => q
  | BdlRule.half => dlv / 2
  | BdlRule.sqrt2 => dlv / sqrtTwoFloat
  | BdlRule.zero => 0
  | BdlRule.dl => dlv
  | BdlRule.other _ => dlv / 2

/-- to_numeric_with_bdl (blank_wide.py): missing → NaN (none); censored →
substituted proxy; otherwise float parse, failure → NaN (none). -/
def to_numeric_with_bdl (c : Cell) (dlv : ℚ) (rule : BdlRule) : Option ℚ :=
  match c with
  | Cell.missing => none
  | Cell.numCell q => some q
  | Cell.strCell s => if isBdlStr s then some (bdl_substitution dlv rule) else pyFloat? s

/-- Mean of a list of rationals; none models the NaN mean of an empty
pandas series. -/
def meanQ? (l : List ℚ) : Option ℚ :=
  if l.isEmpty then none else some (l.sum / (l.length : ℚ))

/-- The Blank_Status computation of compute_blank_qc (blank_wide.py) for one
analyte column:
all cells NaN → NotEvaluated; else any censored cell → OK; else band the mean
of the non-NaN substituted numerics (a NaN mean fails both strict-less
comparisons, so an all-unparseable column falls through to Fail). -/
def compute_blank_status (raw : List Cell) (dlv tolerance_factor : ℚ)
    (rule : BdlRule) : String :=
  if raw.all (fun c => decide (c = Cell.missing)) then "NotEvaluated"
  else
    let valid := (raw.map (fun c => to_numeric_with_bdl c dlv rule)).filterMap id
    if raw.any is_bdl then "OK"
    else
      match meanQ? valid with
      | none => "Fail"
      | some avg =>
          if avg < dlv then "OK"
          else if avg < dlv * tolerance_factor then "Needs Investigation"
          else "Fail"

end BlankWide

namespace DuplicateWide

/-- bdl_substitution (duplicate_wide.py): fixed dl/2, with no rule
parameter — the duplicate module does not receive the batch BDL rule. -/
def bdl_substitution (dlv : ℚ) : ℚ := dlv / 2

/-- to_numeric_with_bdl (duplicate_wide.py): like the blank module's
converter but always substituting dl/2 for a censored cell. -/
def to_numeric_with_bdl (c : Cell) (dlv : ℚ) : Option ℚ :=
  match c with
  | Cell.missing => none
  | Cell.numCell q => some q
  | Cell.strCell s => if isBdlStr s then some (bdl_substitution dlv) else pyFloat? s

/-- Replace every non-overlapping leftmost occurrence of pat (Python
str.replace); the fuel argument bounds the scan and is spent one character
per step. -/
def replaceAllAux (pat rep : List Char) : ℕ → List Char → List Char
  | 0, cs => cs
  | _ + 1, [] => []
  | fuel + 1, c :: rest =>
      if pat.isPrefixOf (c :: rest) then
        rep ++ replaceAllAux pat rep fuel ((c :: rest).drop pat.length)
      else c :: replaceAllAux pat rep fuel rest

/-- Python str.replace(pat, rep) for a non-empty pattern. -/
def replaceAll (cs pat rep : List Char) : List Char :=
  replaceAllAux pat rep cs.length cs

/-- base_name (duplicate_wide.py): None for a non-string sample, else strip
every " Orig" and " Dup" occurrence and trim. -/
def base_name (sample : Option String) : Option String :=
  match sample with
  | none => none
  | some s =>
      some (String.mk (trimChars
        (replaceAll (replaceAll s.data " Orig".data [])  " Dup".data [])))

/-- The RPD output cell of one duplicate pair: empty string, a finite float,
or a non-finite float (inf or NaN, arising only when the denominator of the
RPD formula vanishes or a side failed to parse). -/
inductive RpdField where
  | empty
  | fin (q : ℚ)
  | nonFin
deriving DecidableEq

/-- NaN-aware strict greater-than against a float threshold: a NaN (none)
side compares false, as in pandas. -/
def optGt (o : Option ℚ) (x : ℚ) : Bool :=
  match o with
  | some a => decide (x < a)
  | none => false

/-- RPD formula |a−b| / ((a+b)/2) × 100 on the numeric proxies; a missing
(NaN) side or a zero denominator produces a non-finite float. -/
def rpdOf (a b : Option ℚ) : RpdField :=
  match a, b with
  | some x, some y =>
      if x + y = 0 then RpdField.nonFin
      else RpdField.fin (|x - y| / ((x + y) / 2) * 100)
  | _, _ => RpdField.nonFin

/-- The evaluation of one matched pair for one analyte: RPD cell and
Status. -/
structure DupEval where
  rpd : RpdField
  status : String
deriving DecidableEq

/-- The per-pair, per-analyte classification of compute_duplicate_rpd
(duplicate_wide.py), mask by mask: missing side → NotEvaluated; both
censored → BothBDL; exactly one censored → BDL_Substitution with RPD from
the substituted proxies; both detected but not both above 10×DL →
Below10xDL; both above 10×DL → RPD compared to the tolerance (OK /
Fail_RPD; the vanishing-denominator float edge leaves the status cell
empty when the RPD is NaN and Fail_RPD when it is +inf). -/
def compute_duplicate_pair (orig dup : Cell) (dlv rpd_tolerance : ℚ) : DupEval :=
  let orig_num := to_numeric_with_bdl orig dlv
  let dup_num := to_numeric_with_bdl dup dlv
  let above_10x := optGt orig_num (10 * dlv) && optGt dup_num (10 * dlv)
  if orig = Cell.missing ∨ dup = Cell.missing then
    ⟨RpdField.empty, "NotEvaluated"⟩
  else if is_bdl orig ∧ is_bdl dup then
    ⟨RpdField.empty, "BothBDL"⟩
  else if (is_bdl orig ∧ ¬ is_bdl dup) ∨ (is_bdl dup ∧ ¬ is_bdl orig) then
    ⟨rpdOf orig_num dup_num, "BDL_Substitution"⟩
  else if !above_10x then
    ⟨RpdField.empty, "Below10xDL"⟩
  else
    match orig_num, dup_num with
    | some x, some y =>
        if x + y = 0 then
          if x = y then ⟨RpdField.nonFin, ""⟩ else ⟨RpdField.nonFin, "Fail_RPD"⟩
        else
          let r := |x - y| / ((x + y) / 2) * 100
          if r ≤ rpd_tolerance then ⟨RpdField.fin r, "OK"⟩
          else ⟨RpdField.fin r, "Fail_RPD"⟩
    | _, _ => ⟨RpdField.nonFin, ""⟩

/-- One row of the raw QC table, as the duplicate module reads it: the
Sample text (None when not a string), the QC_Type cell, and the analyte
columns as an association list from column name to cell. -/
structure QCRow where
  sample : Option String
  qcType : Option String
  cells : List (String × Cell)

/-- Column access on a row; a name absent from the row reads as missing. -/
def getCell (r : QCRow) (col : String) : Cell :=
  match r.cells.lookup col with
  | some c => c
  | none => Cell.missing

/-- Substring containment on character lists. -/
def containsSub (needle hay : List Char) : Bool :=
  hay.tails.any (fun t => needle.isPrefixOf t)

/-- pandas Series.str.contains(needle, na=False): a NaN entry is excluded. -/
def strContainsNa (x : Option String) (needle : String) : Bool :=
  match x with
  | none => false
  | some s => containsSub needle.data s.data

/-- The Orig/Dup pairing of compute_duplicate_rpd: restrict to rows whose
QC_Type contains "Duplicate", split into the exact types, and inner-join on
the stripped base name (pandas pd.merge matches equal keys, pairing every
Orig row with every Dup row sharing the key). -/
def dup_pairs (rows : List QCRow) : List (QCRow × QCRow) :=
  let df_dup := rows.filter (fun r => strContainsNa r.qcType "Duplicate")
  let df_orig := df_dup.filter (fun r => decide (r.qcType = some "Duplicate_Orig"))
  let df_dupe := df_dup.filter (fun r => decide (r.qcType = some "Duplicate_Dup"))
  df_orig.flatMap (fun o =>
    (df_dupe.filter (fun d => decide (base_name d.sample = base_name o.sample))).map
      (fun d => (o, d)))

/-- One output record of the duplicate module: the base sample key and the
pair evaluation for one analyte column. -/
structure DupRecord where
  sample : Option String
  rpd : RpdField
  status : String

/-- The duplicate module's records for one mapped analyte column: one
record per merged Orig/Dup pair. -/
def compute_duplicate_records (rows : List QCRow) (col : String)
    (dlv rpd_tolerance : ℚ) : List DupRecord :=
  (dup_pairs rows).map (fun p =>
    let e := compute_duplicate_pair (getCell p.1 col) (getCell p.2 col) dlv rpd_tolerance
    { sample := base_name p.1.sample, rpd := e.rpd, status := e.status })

end DuplicateWide

namespace CrmWide

/-- The qualifier regex of compute_crm_recovery, `^[<>]\s*\d+(\.\d+)?$`, on
an already-stripped character list. -/
def qualMatch (cs : List Char) : Bool :=
  match cs with
  | [] => false
  | c :: rest =>
      if c = '<' || c = '>' then
        let r2 := rest.dropWhile Char.isWhitespace
        let ip := r2.takeWhile Char.isDigit
        let r3 := r2.dropWhile Char.isDigit
        if ip.isEmpty then false
        else
          match r3 with
          | [] => true
          | '.' :: frac => !frac.isEmpty && frac.all Char.isDigit
          | _ => false
      else false

/-- The cell cleaning of compute_crm_recovery: stringify and strip, turn a
"<X"/">X" qualifier into NaN, then coerce to numeric (failure → NaN).  A
missing cell stringifies to "nan", which coerces back to NaN; a numeric
cell round-trips to its value. -/
def crmClean (c : Cell) : Option ℚ :=
  match c with
  | Cell.missing => none
  | Cell.numCell q => some q
  | Cell.strCell s =>
      let t := trimChars s.data
      if qualMatch t then none else pyFloat? (String.mk t)

/-- A Recovery or Bias output cell: empty string, the literal "BDL" marker,
a finite float, or a non-finite float (the zero-certified edge). -/
inductive RecField where
  | empty
  | bdlMark
  | fin (q : ℚ)
  | nonFin
deriving DecidableEq

/-- One CRM record for one analyte and one Meas/Cert pair. -/
structure CrmRec where
  recovery : RecField
  bias : RecField
  status : String
deriving DecidableEq

/-- The per-pair, per-analyte decision of compute_crm_recovery
(crm_wide.py), mask by mask: both cleaned values missing → NotApplicable;
exactly one missing → NotEvaluated; certified < DL → NotApplicable;
certified < 10×DL → Below10xDL; certified ≥ DL and measured < DL → Needs
Investigation with the "BDL" marker; otherwise Recovery = measured /
certified × 100 and Bias = Recovery − 100, banded into OK / Fail (the
certified = 0 float edge yields a non-finite recovery: NaN leaves the
status cell empty, ±inf lies outside the band and fails). -/
def compute_crm_pair (meas cert : Cell) (dlv low_tol high_tol : ℚ) : CrmRec :=
  match crmClean meas, crmClean cert with
  | none, none => ⟨RecField.empty, RecField.empty, "NotApplicable"⟩
  | some _, none => ⟨RecField.empty, RecField.empty, "NotEvaluated"⟩
  | none, some _ => ⟨RecField.empty, RecField.empty, "NotEvaluated"⟩
  | some mv, some cv =>
      if cv < dlv then ⟨RecField.empty, RecField.empty, "NotApplicable"⟩
      else if cv < 10 * dlv then ⟨RecField.empty, RecField.empty, "Below10xDL"⟩
      else if dlv ≤ cv ∧ mv < dlv then ⟨RecField.bdlMark, RecField.bdlMark, "Needs Investigation"⟩
      else if cv = 0 then
        if mv = 0 then ⟨RecField.nonFin, RecField.nonFin, ""⟩
        else ⟨RecField.nonFin, RecField.nonFin, "Fail"⟩
      else
        let recovery := mv / cv * 100
        if low_tol ≤ recovery ∧ recovery ≤ high_tol then
          ⟨RecField.fin recovery, RecField.fin (recovery - 100), "OK"⟩
        else ⟨RecField.fin recovery, RecField.fin (recovery - 100), "Fail"⟩

end CrmWide

namespace QcSummary

/-- normalize_status (qc_summary.py): a NaN/absent status reads as
NotEvaluated. -/
def normalize_status (x : Option String) : String :=
  match x with
  | none => "NotEvaluated"
  | some s => s

/-- final_flag (qc_summary.py) on the three module status cells of one
summary row. -/
def final_flag (crm? dup? blank? : Option String) : String :=
  let crm := normalize_status crm?
  let dup := normalize_status dup?
  let blank := normalize_status blank?
  if crm = "Fail" ∨ dup = "Fail" ∨ blank = "Fail" then "Fail"
  else if crm = "Needs Investigation" then "Needs Investigation"
  else if dup = "BDL_Substitution" ∨ dup = "NotEvaluated" then "Needs Investigation"
  else if blank = "Needs Investigation" ∨ blank = "NotEvaluated" then "Needs Investigation"
  else "Pass"

/-- compute_crm_final_status (qc_summary.py): the module reducer for the
per-run CRM statuses of one analyte. -/
def compute_crm_final_status (statuses : List String) : String :=
  let fail_count := statuses.count "Fail"
  let ni_count := statuses.count "Needs Investigation"
  let ok_count := statuses.count "OK"
  if 2 ≤ fail_count then "Fail"
  else if fail_count = 1 then "Needs Investigation"
  else if 0 < ni_count then "Needs Investigation"
  else if 0 < ok_count then "OK"
  else if ∀ s ∈ statuses, s = "NotApplicable" ∨ s = "Below10xDL" then "NotApplicable"
  else "NotEvaluated"

/-- compute_dup_final_status (qc_summary.py): the module reducer for the
per-run duplicate statuses of one analyte. -/
def compute_dup_final_status (statuses : List String) : String :=
  if "Fail_RPD" ∈ statuses then "Fail"
  else if "BDL_Substitution" ∈ statuses then "Needs Investigation"
  else if "NotEvaluated" ∈ statuses then "Needs Investigation"
  else if "OK" ∈ statuses then "OK"
  else if ∀ s ∈ statuses, s = "BothBDL" ∨ s = "Below10xDL" then "NotApplicable"
  else "NotEvaluated"

/-- A summary key: (Analyte, Unit). -/
abbrev Key := String × String

/-- safe_merge (qc_summary.py) at the row level: an empty right table
returns the left unchanged (its columns then read as absent); otherwise a
pandas left merge on the key — every left row joined to each matching
right row, or kept once with NaN fields when no right row matches. -/
def safe_merge {α β : Type} (left : List (Key × α)) (right : List (Key × β)) :
    List (Key × α × Option β) :=
  if right.isEmpty then left.map (fun x => (x.1, x.2, none))
  else left.flatMap (fun x =>
    match right.filter (fun y => decide (y.1 = x.1)) with
    | [] => [(x.1, x.2, none)]
    | ms => ms.map (fun y => (x.1, x.2, some y.2)))

/-- The groupby-apply reduction of build_qc_summary: one row per distinct
(Analyte, Unit) key, carrying the reducer applied to that key's status
list. -/
def reduceTable (reduceF : List String → String) (rows : List (Key × String)) :
    List (Key × String) :=
  ((rows.map Prod.fst).dedup).map
    (fun k => (k, reduceF ((rows.filter (fun r => decide (r.1 = k))).map Prod.snd)))

/-- One row of the final summary table: the key, the three module status
cells and the overall flag. -/
structure SummaryRow where
  key : Key
  crmFinal : String
  dupFinal : Option String
  blankFinal : Option String
  flag : String
deriving DecidableEq

/-- build_qc_summary (qc_summary.py), restricted to the key and status
columns (the numeric count columns play no part in row membership or the
final flag): reduce the CRM and duplicate tables per key, pass the blank
table through, chain safe_merge starting from the CRM table, compute
Final_QC_Flag per row, then select the fixed col_order column list.  That
final selection raises KeyError — modelled as none — unless every column
it names exists, i.e. unless every module table is nonempty: an empty CRM
input takes the placeholder-frame branch whose column list omits
CRM_Below10xDLCount, and an empty dup_small or blank_small makes
safe_merge return the left table unchanged, so no Duplicate_* (resp.
Blank_*) column is ever created; with all three nonempty every col_order
column exists and the selection succeeds. -/
def build_qc_summary (crmRows dupRows blankRows : List (Key × String)) :
    Option (List SummaryRow) :=
  let crm_small := reduceTable compute_crm_final_status crmRows
  let dup_small := reduceTable compute_dup_final_status dupRows
  let blank_small := blankRows
  let m1 := safe_merge crm_small dup_small
  let m2 := safe_merge m1 blank_small
  let summary := m2.map (fun x =>
    ({ key := x.1, crmFinal := x.2.1.1, dupFinal := x.2.1.2, blankFinal := x.2.2,
       flag := final_flag (some x.2.1.1) x.2.1.2 x.2.2 } : SummaryRow))
  if crmRows.isEmpty || dup_small.isEmpty || blank_small.isEmpty then none
  else some summary

/-- The CRM module reduction as the specification words it (first-match
precedence over the status list): 2 or more Fail → Fail; exactly 1 Fail →
Needs Investigation; else any Needs Investigation → Needs Investigation;
else any OK → OK; else all in {NotApplicable, Below10xDL} →
NotApplicable; else NotEvaluated.  Stated independently of the source
function, for comparison with it. -/
def crm_final_status_claim (statuses : List String) : String :=
  if 2 ≤ statuses.count "Fail" then "Fail"
  else if statuses.count "Fail" = 1 then "Needs Investigation"
  else if "Needs Investigation" ∈ statuses then "Needs Investigation"
  else if "OK" ∈ statuses then "OK"
  else if ∀ s ∈ statuses, s = "NotApplicable" ∨ s = "Below10xDL" then "NotApplicable"
  else "NotEvaluated"

end QcSummary

/-- C3: the CRM module FinalStatus is computed from the per-run status list
by the exact first-match precedence 2+ Fail → Fail; 1 Fail → Needs
Investigation; any Needs Investigation → Needs Investigation; any OK → OK;
all in {NotApplicable, Below10xDL} → NotApplicable; else NotEvaluated — and
in particular [Fail, Fail, OK] → Fail, [Fail, OK] → Needs Investigation,
[NotApplicable, Below10xDL] → NotApplicable. -/
theorem crm_module_reduction_matches_claim :
    (∀ statuses : List String,
        QcSummary.compute_crm_final_status statuses
          = QcSummary.crm_final_status_claim statuses) ∧
    QcSummary.compute_crm_final_status ["Fail", "Fail", "OK"] = "Fail" ∧
    QcSummary.compute_crm_final_status ["Fail", "OK"] = "Needs Investigation" ∧
    QcSummary.compute_crm_final_status ["NotApplicable", "Below10xDL"]
      = "NotApplicable" := by
  refine ⟨?_, by decide, by decide, by decide⟩
  intro l
  simp only [QcSummary.compute_crm_final_status, QcSummary.crm_final_status_claim,
    List.count_pos_iff]

/-- C4: a blank column containing at least one censored cell is classified
OK, regardless of the other cells, the detection limit, the tolerance
factor and the substitution rule. -/
theorem blank_censored_forces_ok (raw : List Cell) (dlv tol : ℚ) (rule : BdlRule)
    (h : ∃ c ∈ raw, is_bdl c = true) :
    BlankWide.compute_blank_status raw dlv tol rule = "OK" := by
  obtain ⟨c, hc, hb⟩ := h
  have hany : raw.any is_bdl = true := List.any_eq_true.mpr ⟨c, hc, hb⟩
  have hnotall : ¬ (raw.all (fun c => decide (c = Cell.missing)) = true) := by
    intro hall
    have hcm : c = Cell.missing := by simpa using List.all_eq_true.mp hall c hc
    rw [hcm] at hb
    simp [is_bdl] at hb
  unfold BlankWide.compute_blank_status
  rw [if_neg hnotall, if_pos hany]

/-- C4 witness: the claim's example column, DL = 0.1, tolerance 3: values
["< 0.1", "5.0"] classify OK. -/
theorem blank_censored_forces_ok_witness :
    BlankWide.compute_blank_status [Cell.strCell "< 0.1", Cell.strCell "5.0"]
      (1 / 10) 3 BdlRule.half = "OK" :=
  blank_censored_forces_ok _ _ _ _ ⟨Cell.strCell "< 0.1", by decide, by decide⟩

/-- C1 counterexample: per-run duplicate statuses [BDL_Substitution], CRM
FinalStatus OK and Blank status OK satisfy the claim's hypotheses (no
module Fail, CRM not Needs Investigation), yet the final flag is Pass, not
Needs Investigation: the duplicate reducer turns BDL_Substitution into a
module status "Needs Investigation", which final_flag's duplicate test does
not catch. -/
theorem dup_cautionary_counterexample :
    ("BDL_Substitution" ∈ (["BDL_Substitution"] : List String) ∧
      QcSummary.compute_dup_final_status ["BDL_Substitution"] ≠ "Fail" ∧
      ("OK" : String) ≠ "Fail" ∧ ("OK" : String) ≠ "Needs Investigation") ∧
    QcSummary.final_flag (some "OK")
        (some (QcSummary.compute_dup_final_status ["BDL_Substitution"]))
        (some "OK") = "Pass" ∧
    QcSummary.final_flag (some "OK")
        (some (QcSummary.compute_dup_final_status ["BDL_Substitution"]))
        (some "OK") ≠ "Needs Investigation" := by decide

/-- C1 (amended): when the duplicate per-run status list contains
BDL_Substitution or NotEvaluated, no module FinalStatus is Fail and the CRM
FinalStatus is not Needs Investigation, the final flag is Needs
Investigation exactly when the Blank status independently forces it (Blank
in {Needs Investigation, NotEvaluated}), and Pass otherwise — the duplicate
module's reduced "Needs Investigation" does not itself force a cautionary
verdict. -/
theorem dup_cautionary_needs_blank (ds : List String) (crmF blankF : String)
    (hmem : "BDL_Substitution" ∈ ds ∨ "NotEvaluated" ∈ ds)
    (hcrm : crmF ≠ "Fail")
    (hdup : QcSummary.compute_dup_final_status ds ≠ "Fail")
    (hblank : blankF ≠ "Fail")
    (hcrmNI : crmF ≠ "Needs Investigation") :
    QcSummary.final_flag (some crmF)
        (some (QcSummary.compute_dup_final_status ds)) (some blankF)
      = if blankF = "Needs Investigation" ∨ blankF = "NotEvaluated"
        then "Needs Investigation" else "Pass" := by
  have hfr : "Fail_RPD" ∉ ds := by
    intro hin
    apply hdup
    unfold QcSummary.compute_dup_final_status
    rw [if_pos hin]
  have hni : QcSummary.compute_dup_final_status ds = "Needs Investigation" := by
    unfold QcSummary.compute_dup_final_status
    rw [if_neg hfr]
    rcases hmem with h | h
    · rw [if_pos h]
    · by_cases h2 : "BDL_Substitution" ∈ ds
      · rw [if_pos h2]
      · rw [if_neg h2, if_pos h]
  rw [hni]
  have c1 : ¬(crmF = "Fail" ∨ ("Needs Investigation" : String) = "Fail"
      ∨ blankF = "Fail") := by
    simp [hcrm, hblank]
  simp only [QcSummary.final_flag, QcSummary.normalize_status]
  rw [if_neg c1, if_neg hcrmNI, if_neg (by decide)]

/-- C1 witness for the amended statement: duplicate statuses
[BDL_Substitution], CRM OK, Blank OK — the flag computes to the Pass arm of
the amended rule. -/
theorem dup_cautionary_needs_blank_witness :
    QcSummary.final_flag (some "OK")
        (some (QcSummary.compute_dup_final_status ["BDL_Substitution"]))
        (some "OK")
      = if ("OK" : String) = "Needs Investigation" ∨ ("OK" : String) = "NotEvaluated"
        then "Needs Investigation" else "Pass" :=
  dup_cautionary_needs_blank ["BDL_Substitution"] "OK" "OK" (Or.inl (by decide))
    (by decide) (by decide) (by decide) (by decide)

/-- C5: for a duplicate pair of two non-censored numeric cells, both at or
below 10×DL → Below10xDL with empty RPD; both above 10×DL → RPD = |orig −
dup| / ((orig + dup)/2) × 100, with OK when RPD ≤ tolerance and Fail_RPD
otherwise. -/
theorem duplicate_numeric_tenx_rule (a b dlv tol : ℚ) :
    (a ≤ 10 * dlv → b ≤ 10 * dlv →
      DuplicateWide.compute_duplicate_pair (Cell.numCell a) (Cell.numCell b) dlv tol
        = ⟨DuplicateWide.RpdField.empty, "Below10xDL"⟩) ∧
    (10 * dlv < a → 10 * dlv < b → 0 < dlv →
      DuplicateWide.compute_duplicate_pair (Cell.numCell a) (Cell.numCell b) dlv tol
        = if |a - b| / ((a + b) / 2) * 100 ≤ tol
          then ⟨DuplicateWide.RpdField.fin (|a - b| / ((a + b) / 2) * 100), "OK"⟩
          else ⟨DuplicateWide.RpdField.fin (|a - b| / ((a + b) / 2) * 100), "Fail_RPD"⟩) := by
  constructor
  · intro h1 h2
    have ha : decide ((10 : ℚ) * dlv < a) = false := decide_eq_false (not_lt.mpr h1)
    simp [DuplicateWide.compute_duplicate_pair, DuplicateWide.to_numeric_with_bdl,
      DuplicateWide.optGt, is_bdl, ha]
  · intro h1 h2 h3
    have ha : decide ((10 : ℚ) * dlv < a) = true := decide_eq_true h1
    have hb : decide ((10 : ℚ) * dlv < b) = true := decide_eq_true h2
    have hab : a + b ≠ 0 := by nlinarith
    simp [DuplicateWide.compute_duplicate_pair, DuplicateWide.to_numeric_with_bdl,
      DuplicateWide.optGt, is_bdl, ha, hb, hab]

/-- C5 witness: DL = 1, orig = 5, dup = 6 → Below10xDL; orig = 50, dup = 60
(both above 10×DL) → the RPD branch. -/
theorem duplicate_numeric_tenx_rule_witness :
    DuplicateWide.compute_duplicate_pair (Cell.numCell 5) (Cell.numCell 6) 1 30
      = ⟨DuplicateWide.RpdField.empty, "Below10xDL"⟩ ∧
    DuplicateWide.compute_duplicate_pair (Cell.numCell 50) (Cell.numCell 60) 1 30
      = if |(50 : ℚ) - 60| / ((50 + 60) / 2) * 100 ≤ 30
        then ⟨DuplicateWide.RpdField.fin (|(50 : ℚ) - 60| / ((50 + 60) / 2) * 100), "OK"⟩
        else ⟨DuplicateWide.RpdField.fin (|(50 : ℚ) - 60| / ((50 + 60) / 2) * 100), "Fail_RPD"⟩ :=
  ⟨(duplicate_numeric_tenx_rule 5 6 1 30).1 (by decide) (by decide),
   (duplicate_numeric_tenx_rule 50 60 1 30).2 (by decide) (by decide) (by decide)⟩

/-- C9: for a duplicate pair of two non-censored numeric cells with exactly
one side above 10×DL, the status is Below10xDL with empty RPD — the branch
covers everything that is not "both sides above 10×DL". -/
theorem duplicate_mixed_tenx_below (a b dlv tol : ℚ) :
    (10 * dlv < a → b ≤ 10 * dlv →
      DuplicateWide.compute_duplicate_pair (Cell.numCell a) (Cell.numCell b) dlv tol
        = ⟨DuplicateWide.RpdField.empty, "Below10xDL"⟩) ∧
    (a ≤ 10 * dlv → 10 * dlv < b →
      DuplicateWide.compute_duplicate_pair (Cell.numCell a) (Cell.numCell b) dlv tol
        = ⟨DuplicateWide.RpdField.empty, "Below10xDL"⟩) := by
  constructor
  · intro _ h2
    have hb : decide ((10 : ℚ) * dlv < b) = false := decide_eq_false (not_lt.mpr h2)
    simp [DuplicateWide.compute_duplicate_pair, DuplicateWide.to_numeric_with_bdl,
      DuplicateWide.optGt, is_bdl, hb]
  · intro h1 _
    have ha : decide ((10 : ℚ) * dlv < a) = false := decide_eq_false (not_lt.mpr h1)
    simp [DuplicateWide.compute_duplicate_pair, DuplicateWide.to_numeric_with_bdl,
      DuplicateWide.optGt, is_bdl, ha]

/-- C9 witness: DL = 1 with pairs (50, 5) and (5, 50): one side above
10×DL, one below — both classify Below10xDL. -/
theorem duplicate_mixed_tenx_below_witness :
    DuplicateWide.compute_duplicate_pair (Cell.numCell 50) (Cell.numCell 5) 1 30
      = ⟨DuplicateWide.RpdField.empty, "Below10xDL"⟩ ∧
    DuplicateWide.compute_duplicate_pair (Cell.numCell 5) (Cell.numCell 50) 1 30
      = ⟨DuplicateWide.RpdField.empty, "Below10xDL"⟩ :=
  ⟨(duplicate_mixed_tenx_below 50 5 1 30).1 (by decide) (by decide),
   (duplicate_mixed_tenx_below 5 50 1 30).2 (by decide) (by decide)⟩

/-- C6 counterexample: with the batch rule zero and DL = 2, the blank
module substitutes 0 while the duplicate module substitutes 2/2 = 1 — its
substitution takes no rule at all — and the BDL_Substitution RPD of the
pair ("< 2", 30) is computed from 1 (giving 5800/31), not from
substitute(2, zero) = 0 (which would give 200). -/
theorem bdl_rule_not_shared_counterexample :
    BlankWide.bdl_substitution 2 BdlRule.zero = 0 ∧
    DuplicateWide.bdl_substitution 2 = 1 ∧
    DuplicateWide.bdl_substitution 2 ≠ BlankWide.bdl_substitution 2 BdlRule.zero ∧
    DuplicateWide.to_numeric_with_bdl (Cell.strCell "< 2") 2 = some 1 ∧
    (DuplicateWide.compute_duplicate_pair (Cell.strCell "< 2") (Cell.numCell 30) 2 30).rpd
      = DuplicateWide.RpdField.fin (5800 / 31) ∧
    (DuplicateWide.compute_duplicate_pair (Cell.strCell "< 2") (Cell.numCell 30) 2 30).status
      = "BDL_Substitution" ∧
    DuplicateWide.rpdOf (some (BlankWide.bdl_substitution 2 BdlRule.zero)) (some 30)
      = DuplicateWide.RpdField.fin 200 ∧
    (5800 / 31 : ℚ) ≠ 200 := by decide

/-- C6 (amended): the blank module substitutes the configurable
substitute(DL, rule), but the duplicate module always substitutes DL/2 for
a censored side, irrespective of the batch rule (its substitution has no
rule parameter); the two agree under rule half and disagree under zero, dl
and sqrt2 whenever DL ≠ 0. -/
theorem duplicate_substitution_fixed_half (dlv : ℚ) (s : String)
    (h : dlv ≠ 0) (hs : isBdlStr s = true) :
    DuplicateWide.bdl_substitution dlv = dlv / 2 ∧
    DuplicateWide.to_numeric_with_bdl (Cell.strCell s) dlv = some (dlv / 2) ∧
    BlankWide.bdl_substitution dlv BdlRule.half = dlv / 2 ∧
    BlankWide.bdl_substitution dlv BdlRule.zero ≠ dlv / 2 ∧
    BlankWide.bdl_substitution dlv BdlRule.dl ≠ dlv / 2 ∧
    BlankWide.bdl_substitution dlv BdlRule.sqrt2 ≠ dlv / 2 := by
  refine ⟨rfl, ?_, rfl, ?_, ?_, ?_⟩
  · simp [DuplicateWide.to_numeric_with_bdl, hs, DuplicateWide.bdl_substitution]
  · show (0 : ℚ) ≠ dlv / 2
    exact (div_ne_zero h two_ne_zero).symm
  · show dlv ≠ dlv / 2
    intro heq
    exact h (by linarith)
  · show dlv / sqrtTwoFloat ≠ dlv / 2
    intro heq
    have hs0 : sqrtTwoFloat ≠ 0 := by decide
    rw [div_eq_div_iff hs0 two_ne_zero] at heq
    have h3 : dlv * (2 - sqrtTwoFloat) = 0 := by rw [mul_sub]; linarith
    rcases mul_eq_zero.mp h3 with h4 | h4
    · exact h h4
    · have hne : sqrtTwoFloat ≠ 2 := by decide
      exact hne (by linarith)

/-- C6 witness for the amended statement, at DL = 2 and the censored cell
"< 1". -/
theorem duplicate_substitution_fixed_half_witness :
    DuplicateWide.bdl_substitution 2 = 2 / 2 ∧
    DuplicateWide.to_numeric_with_bdl (Cell.strCell "< 1") 2 = some (2 / 2) ∧
    BlankWide.bdl_substitution 2 BdlRule.half = 2 / 2 ∧
    BlankWide.bdl_substitution 2 BdlRule.zero ≠ 2 / 2 ∧
    BlankWide.bdl_substitution 2 BdlRule.dl ≠ 2 / 2 ∧
    BlankWide.bdl_substitution 2 BdlRule.sqrt2 ≠ 2 / 2 :=
  duplicate_substitution_fixed_half 2 "< 1" (by decide) (by decide)

/-- C7 counterexample: certified = 0.5, DL = 1 with a missing measured cell
is classified NotEvaluated (the one-side-missing rule precedes the
certified-below-DL rule), not NotApplicable as the claim's "including when
the measured value is missing" requires. -/
theorem crm_cert_below_dl_counterexample :
    CrmWide.crmClean (Cell.numCell (1 / 2)) = some (1 / 2) ∧
    ((1 : ℚ) / 2 < 1) ∧
    CrmWide.compute_crm_pair Cell.missing (Cell.numCell (1 / 2)) 1 80 120
      = ⟨CrmWide.RecField.empty, CrmWide.RecField.empty, "NotEvaluated"⟩ ∧
    ("NotEvaluated" : String) ≠ "NotApplicable" := by decide

/-- C7 (amended): a CRM pair with a numeric certified value below DL is
NotApplicable with empty Recovery and Bias regardless of the measured
number — provided the measured value is present; when the measured cell is
missing, the earlier one-side-missing rule yields NotEvaluated instead. -/
theorem crm_cert_below_dl (mv cv dlv low high : ℚ) (h : cv < dlv) :
    CrmWide.compute_crm_pair (Cell.numCell mv) (Cell.numCell cv) dlv low high
      = ⟨CrmWide.RecField.empty, CrmWide.RecField.empty, "NotApplicable"⟩ ∧
    CrmWide.compute_crm_pair Cell.missing (Cell.numCell cv) dlv low high
      = ⟨CrmWide.RecField.empty, CrmWide.RecField.empty, "NotEvaluated"⟩ := by
  constructor
  · simp [CrmWide.compute_crm_pair, CrmWide.crmClean, h]
  · simp [CrmWide.compute_crm_pair, CrmWide.crmClean]

/-- C7 witness: measured 7, certified 0.5, DL 1, band 80–120. -/
theorem crm_cert_below_dl_witness :
    CrmWide.compute_crm_pair (Cell.numCell 7) (Cell.numCell (1 / 2)) 1 80 120
      = ⟨CrmWide.RecField.empty, CrmWide.RecField.empty, "NotApplicable"⟩ ∧
    CrmWide.compute_crm_pair Cell.missing (Cell.numCell (1 / 2)) 1 80 120
      = ⟨CrmWide.RecField.empty, CrmWide.RecField.empty, "NotEvaluated"⟩ :=
  crm_cert_below_dl 7 (1 / 2) 1 80 120 (by decide)

/-- C8 counterexample: the one-cell blank column ["abc"] — non-censored and
unparseable — is classified Fail, not NotEvaluated: the cell is not NaN, so
the all-missing branch is skipped, and the NaN mean of zero parsed values
falls through both comparisons to Fail. -/
theorem blank_unparseable_counterexample :
    isBdlStr "abc" = false ∧
    pyFloat? "abc" = none ∧
    BlankWide.compute_blank_status [Cell.strCell "abc"] 1 3 BdlRule.half = "Fail" ∧
    ("Fail" : String) ≠ "NotEvaluated" := by decide

/-- C8 (amended): a blank column whose cells are all absent is
NotEvaluated; but a column with at least one non-missing cell in which
every cell converts to NaN (absent, or a non-censored string that fails
float parsing) is classified Fail, because the NaN average fails both
banding comparisons. -/
theorem blank_unparseable_fails (raw : List Cell) (dlv tol : ℚ) (rule : BdlRule) :
    (raw.all (fun c => decide (c = Cell.missing)) = true →
        BlankWide.compute_blank_status raw dlv tol rule = "NotEvaluated") ∧
    ((∃ c ∈ raw, c ≠ Cell.missing) →
      (∀ c ∈ raw, BlankWide.to_numeric_with_bdl c dlv rule = none) →
        BlankWide.compute_blank_status raw dlv tol rule = "Fail") := by
  constructor
  · intro hall
    unfold BlankWide.compute_blank_status
    rw [if_pos hall]
  · rintro ⟨c, hc, hcm⟩ hnum
    have hnotall : ¬ (raw.all (fun c => decide (c = Cell.missing)) = true) := by
      intro hall
      exact hcm (by simpa using List.all_eq_true.mp hall c hc)
    have hnb : raw.any is_bdl = false := by
      rw [List.any_eq_false]
      intro x hx
      have hx2 := hnum x hx
      cases x with
      | missing => simp [is_bdl]
      | numCell q => simp [BlankWide.to_numeric_with_bdl] at hx2
      | strCell s =>
          simp only [is_bdl, Bool.not_eq_true]
          by_cases hb : isBdlStr s = true
          · simp [BlankWide.to_numeric_with_bdl, hb] at hx2
          · simpa using hb
    have hnil : (raw.map (fun c => BlankWide.to_numeric_with_bdl c dlv rule)).filterMap id
        = [] := by
      rw [List.filterMap_eq_nil_iff]
      intro a ha
      obtain ⟨x, hx, rfl⟩ := List.mem_map.mp ha
      exact hnum x hx
    unfold BlankWide.compute_blank_status
    rw [if_neg hnotall]
    simp [hnb, hnil, BlankWide.meanQ?]

/-- C8 witness for the amended statement: the all-missing column
[missing] and the unparseable column ["abc"]. -/
theorem blank_unparseable_fails_witness :
    BlankWide.compute_blank_status [Cell.missing] 1 3 BdlRule.half = "NotEvaluated" ∧
    BlankWide.compute_blank_status [Cell.strCell "abc"] 1 3 BdlRule.half = "Fail" :=
  ⟨(blank_unparseable_fails [Cell.missing] 1 3 BdlRule.half).1 (by decide),
   (blank_unparseable_fails [Cell.strCell "abc"] 1 3 BdlRule.half).2
     ⟨Cell.strCell "abc", by decide, by decide⟩ (by decide)⟩

/-- Under a right table with pairwise-distinct keys, a key selects at most
one right row. -/
theorem filter_key_len_le_one {β : Type} (r : List (QcSummary.Key × β))
    (k : QcSummary.Key) (h : (r.map Prod.fst).Nodup) :
    (r.filter (fun y => decide (y.1 = k))).length ≤ 1 := by
  induction r with
  | nil => simp
  | cons y ys ih =>
      rw [List.map_cons, List.nodup_cons] at h
      obtain ⟨hy, hys⟩ := h
      by_cases hk : y.1 = k
      · have hnil : ys.filter (fun y => decide (y.1 = k)) = [] := by
          rw [List.filter_eq_nil_iff]
          intro z hz
          simp only [decide_eq_true_eq]
          intro hzk
          exact hy (by rw [hk, ← hzk]; exact List.mem_map_of_mem Prod.fst hz)
        rw [List.filter_cons_of_pos (by simpa using hk), hnil]
        simp
      · rw [List.filter_cons_of_neg (by simpa using hk)]
        exact ih hys

/-- A left merge against a right table with pairwise-distinct keys neither
drops nor multiplies left rows: the per-key row count is preserved. -/
theorem safe_merge_countP {α β : Type} (l : List (QcSummary.Key × α))
    (r : List (QcSummary.Key × β)) (k : QcSummary.Key)
    (h : (r.map Prod.fst).Nodup) :
    (QcSummary.safe_merge l r).countP (fun x => decide (x.1 = k))
      = l.countP (fun x => decide (x.1 = k)) := by
  unfold QcSummary.safe_merge
  by_cases hr : r.isEmpty
  · rw [if_pos hr, List.countP_map]
    rfl
  · rw [if_neg hr]
    induction l with
    | nil => rfl
    | cons x xs ih =>
        simp only [List.flatMap_cons, List.countP_append, List.countP_cons]
        rw [ih]
        cases hf : r.filter (fun y => decide (y.1 = x.1)) with
        | nil => simp [List.countP_cons, Nat.add_comm]
        | cons m ms =>
            have hlen := filter_key_len_le_one r x.1 h
            rw [hf] at hlen
            have hms : ms = [] := by
              cases ms with
              | nil => rfl
              | cons a as => simp at hlen
            subst hms
            simp [List.countP_cons, Nat.add_comm]

/-- On a duplicate-free key list, counting a key gives 1 or 0 according to
membership. -/
theorem countP_eq_ite_of_nodup (l : List QcSummary.Key) (k : QcSummary.Key)
    (h : l.Nodup) :
    l.countP (fun x => decide (x = k)) = if k ∈ l then 1 else 0 := by
  induction l with
  | nil => simp
  | cons a as ih =>
      rw [List.nodup_cons] at h
      obtain ⟨ha, has⟩ := h
      rw [List.countP_cons, ih has]
      by_cases hk : a = k
      · subst hk
        simp [ha]
      · have hka : ¬ k = a := fun hka => hk hka.symm
        simp [hka, hk]

/-- The key column of a reduced table is the dedup of the input table's
key column. -/
theorem reduceTable_keys (f : List String → String)
    (rows : List (QcSummary.Key × String)) :
    (QcSummary.reduceTable f rows).map Prod.fst = (rows.map Prod.fst).dedup := by
  unfold QcSummary.reduceTable
  rw [List.map_map]
  show ((rows.map Prod.fst).dedup).map (fun x => x) = (rows.map Prod.fst).dedup
  exact List.map_id _

/-- A nonempty list is not isEmpty. -/
theorem isEmpty_false_of_ne_nil {α : Type} {l : List α} (h : l ≠ []) :
    l.isEmpty = false := by
  cases l with
  | nil => exact absurd rfl h
  | cons a as => rfl

/-- Reducing a nonempty table yields a nonempty table (its key column is
the dedup of a nonempty list). -/
theorem reduceTable_ne_nil (f : List String → String)
    (rows : List (QcSummary.Key × String)) (h : rows ≠ []) :
    QcSummary.reduceTable f rows ≠ [] := by
  unfold QcSummary.reduceTable
  intro hnil
  cases hm : rows.map Prod.fst with
  | nil =>
      rw [List.map_eq_nil_iff] at hm
      exact h hm
  | cons a as =>
      have hmem : a ∈ (rows.map Prod.fst).dedup :=
        List.mem_dedup.mpr (by rw [hm]; exact List.mem_cons_self a as)
      rw [List.map_eq_nil_iff] at hnil
      rw [hnil] at hmem
      exact absurd hmem (List.not_mem_nil a)

/-- C2 counterexample: with all three module tables nonempty (so the final
column selection succeeds), a (Analyte, Unit) key present in the duplicate
result table but absent from the CRM table has no row in the summary: the
merge chain is anchored on the CRM table by left joins, and the summary's
key list is exactly the CRM table's. -/
theorem summary_drops_noncrm_key_counterexample :
    (("Pb", "ppm") : QcSummary.Key)
        ∈ ([((("Pb", "ppm") : QcSummary.Key), "OK")].map Prod.fst) ∧
    (QcSummary.build_qc_summary
        [((("As", "ppm") : QcSummary.Key), "OK")]
        [((("Pb", "ppm") : QcSummary.Key), "OK")]
        [((("As", "ppm") : QcSummary.Key), "OK")]).map
      (fun rows => rows.map (fun row => row.key))
      = some [(("As", "ppm") : QcSummary.Key)] ∧
    (("Pb", "ppm") : QcSummary.Key) ≠ (("As", "ppm") : QcSummary.Key) := by
  decide

/-- C2 (amended): when all three module tables are nonempty (so the final
col_order selection succeeds), a (Analyte, Unit) key appears in the
summary exactly once when it appears in the CRM result table and not at
all otherwise — keys present only in the Duplicate or Blank tables are
dropped by the CRM-anchored left joins; and when any module table is
empty, build_qc_summary raises KeyError at the column selection instead of
returning a summary.  (The blank table carries one row per analyte, so its
keys are assumed pairwise distinct.) -/
theorem summary_rows_follow_crm_keys
    (crmRows dupRows blankRows : List (QcSummary.Key × String))
    (k : QcSummary.Key) (hb : (blankRows.map Prod.fst).Nodup) :
    (crmRows ≠ [] → dupRows ≠ [] → blankRows ≠ [] →
      (QcSummary.build_qc_summary crmRows dupRows blankRows).map
          (fun rows => (rows.filter (fun row => decide (row.key = k))).length)
        = some (if k ∈ crmRows.map Prod.fst then 1 else 0)) ∧
    (crmRows = [] ∨ dupRows = [] ∨ blankRows = [] →
      QcSummary.build_qc_summary crmRows dupRows blankRows = none) := by
  constructor
  · intro hc hd hbl
    have hdup : ((QcSummary.reduceTable QcSummary.compute_dup_final_status
        dupRows).map Prod.fst).Nodup := by
      rw [reduceTable_keys]
      exact List.nodup_dedup _
    have h1 : crmRows.isEmpty = false := isEmpty_false_of_ne_nil hc
    have h2 : (QcSummary.reduceTable QcSummary.compute_dup_final_status
        dupRows).isEmpty = false :=
      isEmpty_false_of_ne_nil (reduceTable_ne_nil _ _ hd)
    have h3 : blankRows.isEmpty = false := isEmpty_false_of_ne_nil hbl
    have hbuild : QcSummary.build_qc_summary crmRows dupRows blankRows
        = some ((QcSummary.safe_merge
            (QcSummary.safe_merge
              (QcSummary.reduceTable QcSummary.compute_crm_final_status crmRows)
              (QcSummary.reduceTable QcSummary.compute_dup_final_status dupRows))
            blankRows).map (fun x =>
          ({ key := x.1, crmFinal := x.2.1.1, dupFinal := x.2.1.2,
             blankFinal := x.2.2,
             flag := QcSummary.final_flag (some x.2.1.1) x.2.1.2 x.2.2 }
            : QcSummary.SummaryRow))) := by
      simp only [QcSummary.build_qc_summary]
      rw [h1, h2, h3]
      rfl
    rw [hbuild, Option.map_some']
    congr 1
    rw [← List.countP_eq_length_filter, List.countP_map]
    show (QcSummary.safe_merge
        (QcSummary.safe_merge
          (QcSummary.reduceTable QcSummary.compute_crm_final_status crmRows)
          (QcSummary.reduceTable QcSummary.compute_dup_final_status dupRows))
        blankRows).countP (fun x => decide (x.1 = k)) = _
    rw [safe_merge_countP _ _ _ hb, safe_merge_countP _ _ _ hdup]
    unfold QcSummary.reduceTable
    rw [List.countP_map]
    show ((crmRows.map Prod.fst).dedup).countP (fun x => decide (x = k)) = _
    rw [countP_eq_ite_of_nodup _ _ (List.nodup_dedup _)]
    exact if_congr List.mem_dedup rfl rfl
  · intro h
    rcases h with h | h | h
    · subst h
      simp [QcSummary.build_qc_summary]
    · subst h
      simp [QcSummary.build_qc_summary, QcSummary.reduceTable]
    · subst h
      simp [QcSummary.build_qc_summary]

/-- C2 witness: with three one-row tables the summary exists and holds
exactly one row for ("As", "ppm"); with an empty CRM and Blank table the
function raises (returns none). -/
theorem summary_rows_follow_crm_keys_witness :
    (QcSummary.build_qc_summary [((("As", "ppm") : QcSummary.Key), "OK")]
        [((("As", "ppm") : QcSummary.Key), "OK")]
        [((("As", "ppm") : QcSummary.Key), "OK")]).map
      (fun rows => (rows.filter (fun row => decide (row.key
          = (("As", "ppm") : QcSummary.Key)))).length)
      = some (if (("As", "ppm") : QcSummary.Key)
            ∈ [((("As", "ppm") : QcSummary.Key), "OK")].map Prod.fst then 1 else 0) ∧
    QcSummary.build_qc_summary [] [((("As", "ppm") : QcSummary.Key), "OK")] [] = none :=
  ⟨(summary_rows_follow_crm_keys [((("As", "ppm") : QcSummary.Key), "OK")]
      [((("As", "ppm") : QcSummary.Key), "OK")]
      [((("As", "ppm") : QcSummary.Key), "OK")]
      (("As", "ppm") : QcSummary.Key) (by decide)).1
      (by decide) (by decide) (by decide),
   (summary_rows_follow_crm_keys [] [((("As", "ppm") : QcSummary.Key), "OK")] []
      (("As", "ppm") : QcSummary.Key) (by decide)).2 (Or.inl rfl)⟩

/-- Counting with a predicate that is constant on the list gives the length
or zero. -/
theorem countP_const_on {α : Type} (lst : List α) (p : α → Bool) (b : Bool)
    (h : ∀ a ∈ lst, p a = b) : lst.countP p = if b then lst.length else 0 := by
  induction lst with
  | nil => cases b <;> simp
  | cons a as ih =>
      rw [List.countP_cons, ih (fun x hx => h x (List.mem_cons_of_mem a hx)),
        h a (List.mem_cons_self a as)]
      cases b <;> simp [Nat.add_comm]

/-- The inner-join count: pairing every Orig row against the Dup rows
sharing its base key yields, for each key, the product of the two sides'
per-key row counts. -/
theorem dup_pairs_countP (os ds : List DuplicateWide.QCRow) (k : Option String) :
    (os.flatMap (fun o =>
        (ds.filter (fun d => decide (DuplicateWide.base_name d.sample
            = DuplicateWide.base_name o.sample))).map (fun d => (o, d)))).countP
      (fun p => decide (DuplicateWide.base_name p.1.sample = k))
      = os.countP (fun o => decide (DuplicateWide.base_name o.sample = k))
        * ds.countP (fun d => decide (DuplicateWide.base_name d.sample = k)) := by
  induction os with
  | nil => simp
  | cons o os ih =>
      simp only [List.flatMap_cons, List.countP_append, List.countP_cons]
      rw [ih]
      rw [countP_const_on
        ((ds.filter (fun d => decide (DuplicateWide.base_name d.sample
            = DuplicateWide.base_name o.sample))).map (fun d => (o, d)))
        (fun p => decide (DuplicateWide.base_name p.1.sample = k))
        (decide (DuplicateWide.base_name o.sample = k))
        (by
          intro a ha
          obtain ⟨d, _, rfl⟩ := List.mem_map.mp ha
          rfl)]
      by_cases h : DuplicateWide.base_name o.sample = k
      · simp [h]
        rw [← List.countP_eq_length_filter]
        ring
      · simp [h]

/-- C10: the duplicate module's records for one mapped analyte column,
counted per base-sample key, form the full cross product: with m
Duplicate_Orig rows and n Duplicate_Dup rows carrying that base key, the
module emits exactly m × n records for the key (an inner join: an
unmatched side yields no record, multiple matches multiply). -/
theorem duplicate_pairing_cross_product (rows : List DuplicateWide.QCRow)
    (col : String) (dlv tol : ℚ) (k : Option String) :
    ((DuplicateWide.compute_duplicate_records rows col dlv tol).filter
        (fun rec => decide (rec.sample = k))).length
      = (rows.filter (fun r => decide (DuplicateWide.base_name r.sample = k)
            && decide (r.qcType = some "Duplicate_Orig"))).length
        * (rows.filter (fun r => decide (DuplicateWide.base_name r.sample = k)
            && decide (r.qcType = some "Duplicate_Dup"))).length := by
  have horig : (rows.filter (fun r => DuplicateWide.strContainsNa r.qcType
        "Duplicate")).filter (fun r => decide (r.qcType = some "Duplicate_Orig"))
      = rows.filter (fun r => decide (r.qcType = some "Duplicate_Orig")) := by
    rw [List.filter_filter]
    apply List.filter_congr
    intro r _
    by_cases h : r.qcType = some "Duplicate_Orig"
    · rw [h]
      decide
    · simp [h]
  have hdupe : (rows.filter (fun r => DuplicateWide.strContainsNa r.qcType
        "Duplicate")).filter (fun r => decide (r.qcType = some "Duplicate_Dup"))
      = rows.filter (fun r => decide (r.qcType = some "Duplicate_Dup")) := by
    rw [List.filter_filter]
    apply List.filter_congr
    intro r _
    by_cases h : r.qcType = some "Duplicate_Dup"
    · rw [h]
      decide
    · simp [h]
  unfold DuplicateWide.compute_duplicate_records
  rw [← List.countP_eq_length_filter, List.countP_map]
  show (DuplicateWide.dup_pairs rows).countP
      (fun p => decide (DuplicateWide.base_name p.1.sample = k)) = _
  unfold DuplicateWide.dup_pairs
  simp only [horig, hdupe]
  rw [dup_pairs_countP]
  rw [List.countP_filter, List.countP_filter,
    List.countP_eq_length_filter, List.countP_eq_length_filter]

end QAQC
